import Mathlib

/-!
Shallow embedding of the Gammapy high-level interface configuration schema
(`gammapy/scripts/config/schema.yaml`) and of a JSON-Schema-conformant
validator applied to it.  The schema is a declarative JSON-Schema document;
each subschema below is translated into an executable checker returning the
list of violations (field path, description) that a conformant validation
engine reports, with all keywords applied conjunctively and all violations
collected in a single pass.
-/

/-- A parsed YAML/JSON document: the in-memory tree the validator consumes.
Objects are ordered association lists; numbers are rationals (`type: integer`
is the subset with denominator 1). -/
inductive Json where
  | null
  | bool (b : Bool)
  | num (q : Rat)
  | str (s : String)
  | arr (items : List Json)
  | obj (fields : List (String × Json))
deriving Repr

/-- A reported violation: (field path, human-readable description). -/
abbrev Violation := String × String

/-- Look up a key in an object's field list (first occurrence). -/
def jget (fields : List (String × Json)) (key : String) : Option Json :=
  match fields with
  | [] => none
  | (k, v) :: rest => if k = key then some v else jget rest key

/-- Whether an object has a key. -/
def jhas (fields : List (String × Json)) (key : String) : Bool :=
  (jget fields key).isSome

/-- Extend a field path with one more component. -/
def pathExt (path key : String) : String :=
  if path = "" then key else path ++ "." ++ key

/-- Follow a chain of keys from a document root. -/
def jgetPath : Json → List String → Option Json
  | j, [] => some j
  | .obj fields, k :: rest =>
      match jget fields k with
      | some v => jgetPath v rest
      | none => none
  | _, _ :: _ => none

def isObj : Json → Bool
  | .obj _ => true
  | _ => false

def isStr : Json → Bool
  | .str _ => true
  | _ => false

def isBool : Json → Bool
  | .bool _ => true
  | _ => false

def isNum : Json → Bool
  | .num _ => true
  | _ => false

/-- Subschema `type: integer`: a JSON number with no fractional part. -/
def isInt : Json → Bool
  | .num q => q.den = 1
  | _ => false

mutual

/-- Structural equality of JSON values (JSON-Schema value equality). -/
def jsonBeq : Json → Json → Bool
  | .null, .null => true
  | .bool a, .bool b => a == b
  | .num a, .num b => a == b
  | .str a, .str b => a == b
  | .arr as, .arr bs => jsonBeqList as bs
  | .obj as, .obj bs => jsonBeqFields as bs
  | _, _ => false

/-- Elementwise equality of JSON arrays. -/
def jsonBeqList : List Json → List Json → Bool
  | [], [] => true
  | x :: xs, y :: ys => jsonBeq x y && jsonBeqList xs ys
  | _, _ => false

/-- Fieldwise equality of JSON objects. -/
def jsonBeqFields : List (String × Json) → List (String × Json) → Bool
  | [], [] => true
  | (k, v) :: xs, (k2, v2) :: ys => k == k2 && jsonBeq v v2 && jsonBeqFields xs ys
  | _, _ => false

end

/-- JSON-Schema `enum`: membership of the instance in the literal list. -/
def jsonMem (j : Json) (allowed : List Json) : Bool :=
  allowed.any fun a => jsonBeq a j

/-- JSON-Schema `additionalProperties: false`: every key of the object must be
among the declared property names. -/
def checkClosed (path : String) (allowed : List String) (fields : List (String × Json)) :
    List Violation :=
  fields.filterMap fun kv =>
    if allowed.contains kv.1 then none
    else some (pathExt path kv.1, "additional property not allowed: " ++ kv.1)

/-- JSON-Schema `required`: each listed key must be present. -/
def checkRequired (path : String) (required : List String) (fields : List (String × Json)) :
    List Violation :=
  required.filterMap fun k =>
    if jhas fields k then none
    else some (path, "missing required property: " ++ k)

/-- Validate one declared property if it is present (JSON-Schema `properties`:
absent properties produce no violations). -/
def checkProp (fields : List (String × Json)) (path key : String)
    (sub : String → Json → List Violation) : List Violation :=
  match jget fields key with
  | some v => sub (pathExt path key) v
  | none => []

/-- Leaf subschema `{type: string}`. -/
def checkString (path : String) (j : Json) : List Violation :=
  if isStr j then [] else [(path, "is not of type: string")]

/-- Leaf subschema `{type: boolean}`. -/
def checkBoolean (path : String) (j : Json) : List Violation :=
  if isBool j then [] else [(path, "is not of type: boolean")]

/-- Leaf subschema `{type: number}`. -/
def checkNumber (path : String) (j : Json) : List Violation :=
  if isNum j then [] else [(path, "is not of type: number")]

/-- Leaf subschema `{type: integer}`. -/
def checkInteger (path : String) (j : Json) : List Violation :=
  if isInt j then [] else [(path, "is not of type: integer")]

/-- An enum-only subschema (used for `filter_type` and `frame`). -/
def checkEnum (allowed : List Json) (path : String) (j : Json) : List Violation :=
  if jsonMem j allowed then [] else [(path, "is not one of the enum values")]

/-- The `enum` of `general.logging.level` in schema.yaml: the unquoted names
parse as YAML strings and the bare numerals as YAML integers. -/
def levelEnum : List Json :=
  [.str "CRITICAL", .num 50, .str "ERROR", .num 40, .str "WARNING", .num 30,
   .str "INFO", .num 20, .str "DEBUG", .num 10, .str "NOTSET"]

/-- Subschema of `general.logging.level`: `type: string` and the `enum`,
both enforced. -/
def validateLevel (path : String) (j : Json) : List Violation :=
  (if isStr j then [] else [(path, "is not of type: string")])
    ++ (if jsonMem j levelEnum then [] else [(path, "is not one of the enum values")])

/-- Declared property names of `general.logging`. -/
def loggingProps : List String := ["level", "filename", "filemode", "format", "datefmt"]

/-- JSON-Schema `dependencies: {filemode: [filename]}` on `general.logging`:
if `filemode` is present then `filename` must be present too. -/
def checkLoggingDeps (path : String) (fields : List (String × Json)) : List Violation :=
  if jhas fields "filemode" && !jhas fields "filename" then
    [(path, "dependency: filemode requires filename")]
  else []

/-- Subschema of `general.logging`: closed object, string-typed optional
fields, `required: [level]`, and the filemode->filename dependency.
Non-objects only violate `type: object` (object keywords do not apply). -/
def validateLogging (path : String) (j : Json) : List Violation :=
  match j with
  | .obj fields =>
      checkClosed path loggingProps fields
        ++ checkProp fields path "level" validateLevel
        ++ checkProp fields path "filename" checkString
        ++ checkProp fields path "filemode" checkString
        ++ checkProp fields path "format" checkString
        ++ checkProp fields path "datefmt" checkString
        ++ checkRequired path ["level"] fields
        ++ checkLoggingDeps path fields
  | _ => [(path, "is not of type: object")]

/-- Declared property names of `general`. -/
def generalProps : List String := ["out_folder", "logging"]

/-- Subschema of `general`: closed object with `out_folder` a string,
`logging` as above, and `required: [logging]`. -/
def validateGeneral (path : String) (j : Json) : List Violation :=
  match j with
  | .obj fields =>
      checkClosed path generalProps fields
        ++ checkProp fields path "out_folder" checkString
        ++ checkProp fields path "logging" validateLogging
        ++ checkRequired path ["logging"] fields
  | _ => [(path, "is not of type: object")]

/-- Declared property names of the `observations_filter` definition. -/
def filterProps : List String :=
  ["exclude", "inverted", "filter_type", "frame", "lon", "lat", "radius",
   "border", "variable", "value_range", "obs_ids"]

/-- The `enum` of `filter_type`. -/
def filterTypeEnum : List Json :=
  [.str "sky_circle", .str "angle_box", .str "quantity_box", .str "par_box", .str "ids"]

/-- The `enum` of `frame`. -/
def frameEnum : List Json :=
  [.str "galactic", .str "equatorial", .str "icrs", .str "fk5"]

/-- Subschema `items: {type: number}` over an array, reporting element paths from
index `i`. -/
def checkNumberItems (path : String) (i : Nat) : List Json → List Violation
  | [] => []
  | x :: xs => checkNumber (pathExt path (toString i)) x ++ checkNumberItems path (i + 1) xs

/-- Subschema `items: {type: integer}` over an array. -/
def checkIntegerItems (path : String) (i : Nat) : List Json → List Violation
  | [] => []
  | x :: xs => checkInteger (pathExt path (toString i)) x ++ checkIntegerItems path (i + 1) xs

/-- Subschema of `value_range`: `type: array`, numeric items,
`minItems: 2`, `maxItems: 2`. -/
def validateValueRange (path : String) (j : Json) : List Violation :=
  match j with
  | .arr items =>
      checkNumberItems path 0 items
        ++ (if items.length < 2 then [(path, "array is too short (minItems: 2)")] else [])
        ++ (if 2 < items.length then [(path, "array is too long (maxItems: 2)")] else [])
  | _ => [(path, "is not of type: array")]

/-- Subschema of `obs_ids`: `type: array` with integer items. -/
def validateObsIds (path : String) (j : Json) : List Violation :=
  match j with
  | .arr items => checkIntegerItems path 0 items
  | _ => [(path, "is not of type: array")]

/-- The `observations_filter` definition: a closed object whose declared
properties carry the types and enums of schema.yaml's `definitions` block. -/
def validateObservationsFilter (path : String) (j : Json) : List Violation :=
  match j with
  | .obj fields =>
      checkClosed path filterProps fields
        ++ checkProp fields path "exclude" checkBoolean
        ++ checkProp fields path "inverted" checkBoolean
        ++ checkProp fields path "filter_type" (checkEnum filterTypeEnum)
        ++ checkProp fields path "frame" (checkEnum frameEnum)
        ++ checkProp fields path "lon" checkNumber
        ++ checkProp fields path "lat" checkNumber
        ++ checkProp fields path "radius" checkNumber
        ++ checkProp fields path "border" checkNumber
        ++ checkProp fields path "variable" checkString
        ++ checkProp fields path "value_range" validateValueRange
        ++ checkProp fields path "obs_ids" validateObsIds
  | _ => [(path, "is not of type: object")]

/-- Itemwise check of `observations.filter`: each item validates against
the `observations_filter` definition (`$ref`). -/
def validateFilterItems (path : String) (i : Nat) : List Json → List Violation
  | [] => []
  | x :: xs =>
      validateObservationsFilter (pathExt path (toString i)) x
        ++ validateFilterItems path (i + 1) xs

/-- Subschema of `observations.filter`: `type: array` of filter entries. -/
def validateFilterArray (path : String) (j : Json) : List Violation :=
  match j with
  | .arr items => validateFilterItems path 0 items
  | _ => [(path, "is not of type: array")]

/-- Declared property names of `observations`. -/
def observationsProps : List String := ["data_store", "filter"]

/-- Subschema of `observations`: closed object with `data_store` a string
and `filter` an array of filter entries. -/
def validateObservations (path : String) (j : Json) : List Violation :=
  match j with
  | .obj fields =>
      checkClosed path observationsProps fields
        ++ checkProp fields path "data_store" checkString
        ++ checkProp fields path "filter" validateFilterArray
  | _ => [(path, "is not of type: object")]

/-- Subschemas of `grid`, `model`, `analysis`: just `type: object`. -/
def validateObjectOnly (path : String) (j : Json) : List Violation :=
  if isObj j then [] else [(path, "is not of type: object")]

/-- Declared top-level property names. -/
def topProps : List String := ["general", "observations", "grid", "model", "analysis"]

/-- The whole schema: a closed top-level object with the five declared
sections and `required: [general]`.  Returns every violation found in one
pass, in schema order. -/
def validateConfig (j : Json) : List Violation :=
  match j with
  | .obj fields =>
      checkClosed "" topProps fields
        ++ checkProp fields "" "general" validateGeneral
        ++ checkProp fields "" "observations" validateObservations
        ++ checkProp fields "" "grid" validateObjectOnly
        ++ checkProp fields "" "model" validateObjectOnly
        ++ checkProp fields "" "analysis" validateObjectOnly
        ++ checkRequired "" ["general"] fields
  | _ => [("", "is not of type: object")]

/-- The boolean validity flag: valid iff no violation was reported. -/
def isValidConfig (j : Json) : Bool :=
  (validateConfig j).isEmpty

/-- Insert a declared `default` for an absent property (present properties are
never overwritten). -/
def setDefault (fields : List (String × Json)) (key : String) (v : Json) :
    List (String × Json) :=
  if jhas fields key then fields else fields ++ [(key, v)]

/-- Apply a transformation to the value under a key, where present. -/
def mapField (fields : List (String × Json)) (key : String) (f : Json → Json) :
    List (String × Json) :=
  fields.map fun kv => if kv.1 = key then (kv.1, f kv.2) else kv

/-- Modelled from the spec: the default-filling pass of the configuration
validation step (spec section 3: "`general` is always present; `general.logging`
is always present (defaulting to an empty object coerced to `{level: "INFO"}`)").
The code applying the schema's `default` annotations is not among the supplied
files, so the standard pass is modelled: an absent property whose subschema
declares a `default` is inserted with that default, and object properties are
then filled recursively.  The defaults are the ones declared in schema.yaml;
here, `level: INFO`. -/
def fillLoggingDefaults : Json → Json
  | .obj fields => .obj (setDefault fields "level" (.str "INFO"))
  | j => j

/-- Modelled from the spec: default filling inside `general` — schema.yaml
declares `out_folder` default `"."` and `logging` default `{"level": ""}`;
a present (or just inserted) `logging` object is filled recursively. -/
def fillGeneralDefaults : Json → Json
  | .obj fields =>
      .obj (mapField
        (setDefault (setDefault fields "out_folder" (.str "."))
          "logging" (.obj [("level", .str "")]))
        "logging" fillLoggingDefaults)
  | j => j

/-- Modelled from the spec: default filling at the top level — schema.yaml
declares `general` default `{"logging": {}}`; a present (or just inserted)
`general` object is filled recursively. -/
def fillConfigDefaults : Json → Json
  | .obj fields =>
      .obj (mapField (setDefault fields "general" (.obj [("logging", .obj [])]))
        "general" fillGeneralDefaults)
  | j => j

/-! ### Basic lemmas about the helper combinators -/

theorem pathExt_empty (key : String) : pathExt "" key = key := rfl

theorem jhas_eq_false_of_jget {fields : List (String × Json)} {k : String}
    (h : jget fields k = none) : jhas fields k = false := by
  simp [jhas, h]

theorem checkProp_some {fields : List (String × Json)} {path key : String}
    {sub : String → Json → List Violation} {v : Json} (h : jget fields key = some v) :
    checkProp fields path key sub = sub (pathExt path key) v := by
  simp [checkProp, h]

theorem checkProp_none {fields : List (String × Json)} {path key : String}
    {sub : String → Json → List Violation} (h : jget fields key = none) :
    checkProp fields path key sub = [] := by
  simp [checkProp, h]

theorem mem_checkClosed {path : String} {allowed : List String}
    {fields : List (String × Json)} {k : String} {v : Json}
    (hin : (k, v) ∈ fields) (hk : allowed.contains k = false) :
    (pathExt path k, "additional property not allowed: " ++ k) ∈
      checkClosed path allowed fields := by
  unfold checkClosed
  refine List.mem_filterMap.mpr ⟨(k, v), hin, ?_⟩
  simp only [hk, Bool.false_eq_true, if_false]

theorem checkRequired_single_of_absent {path k : String} {fields : List (String × Json)}
    (h : jget fields k = none) :
    checkRequired path [k] fields = [(path, "missing required property: " ++ k)] := by
  simp [checkRequired, jhas, h]

/-! ### Lifting violations through the document structure -/

theorem mem_config_of_top_closed {fields : List (String × Json)} {v : Violation}
    (h : v ∈ checkClosed "" topProps fields) : v ∈ validateConfig (.obj fields) := by
  simp only [validateConfig, List.mem_append]
  exact Or.inl (Or.inl (Or.inl (Or.inl (Or.inl (Or.inl h)))))

theorem mem_config_of_general {fields : List (String × Json)} {g : Json} {v : Violation}
    (hg : jget fields "general" = some g) (hv : v ∈ validateGeneral "general" g) :
    v ∈ validateConfig (.obj fields) := by
  simp only [validateConfig, List.mem_append]
  refine Or.inl (Or.inl (Or.inl (Or.inl (Or.inl (Or.inr ?_)))))
  rw [checkProp_some hg, pathExt_empty]
  exact hv

theorem mem_config_of_required_general {fields : List (String × Json)}
    (h : jget fields "general" = none) :
    ("", "missing required property: general") ∈ validateConfig (.obj fields) := by
  simp only [validateConfig, List.mem_append]
  refine Or.inr ?_
  rw [checkRequired_single_of_absent h]
  exact List.mem_singleton.mpr rfl

theorem mem_config_of_observations {fields : List (String × Json)} {o : Json} {v : Violation}
    (ho : jget fields "observations" = some o)
    (hv : v ∈ validateObservations "observations" o) :
    v ∈ validateConfig (.obj fields) := by
  simp only [validateConfig, List.mem_append]
  refine Or.inl (Or.inl (Or.inl (Or.inl (Or.inr ?_))))
  rw [checkProp_some ho, pathExt_empty]
  exact hv

theorem mem_general_of_closed {gf : List (String × Json)} {path : String} {v : Violation}
    (h : v ∈ checkClosed path generalProps gf) : v ∈ validateGeneral path (.obj gf) := by
  simp only [validateGeneral, List.mem_append]
  exact Or.inl (Or.inl (Or.inl h))

theorem mem_general_of_logging {gf : List (String × Json)} {path : String} {l : Json}
    {v : Violation} (hl : jget gf "logging" = some l)
    (hv : v ∈ validateLogging (pathExt path "logging") l) :
    v ∈ validateGeneral path (.obj gf) := by
  simp only [validateGeneral, List.mem_append]
  refine Or.inl (Or.inr ?_)
  rw [checkProp_some hl]
  exact hv

theorem mem_general_of_required_logging {gf : List (String × Json)} {path : String}
    (h : jget gf "logging" = none) :
    (path, "missing required property: logging") ∈ validateGeneral path (.obj gf) := by
  simp only [validateGeneral, List.mem_append]
  refine Or.inr ?_
  rw [checkRequired_single_of_absent h]
  exact List.mem_singleton.mpr rfl

theorem mem_logging_of_level {lf : List (String × Json)} {path : String} {j : Json}
    {v : Violation} (hj : jget lf "level" = some j)
    (hv : v ∈ validateLevel (pathExt path "level") j) :
    v ∈ validateLogging path (.obj lf) := by
  simp only [validateLogging, List.mem_append]
  refine Or.inl (Or.inl (Or.inl (Or.inl (Or.inl (Or.inl (Or.inr ?_))))))
  rw [checkProp_some hj]
  exact hv

theorem mem_logging_of_deps {lf : List (String × Json)} {path : String} {v : Violation}
    (h : v ∈ checkLoggingDeps path lf) : v ∈ validateLogging path (.obj lf) := by
  simp only [validateLogging, List.mem_append]
  exact Or.inr h

theorem mem_observations_of_filter {of : List (String × Json)} {path : String} {f : Json}
    {v : Violation} (hf : jget of "filter" = some f)
    (hv : v ∈ validateFilterArray (pathExt path "filter") f) :
    v ∈ validateObservations path (.obj of) := by
  simp only [validateObservations, List.mem_append]
  refine Or.inr ?_
  rw [checkProp_some hf]
  exact hv

theorem mem_filterItems_of_entry {e : Json} {m : String}
    (hv : ∀ p : String, ∃ q, (q, m) ∈ validateObservationsFilter p e) :
    ∀ (items : List Json) (path : String) (i : Nat), e ∈ items →
      ∃ q, (q, m) ∈ validateFilterItems path i items := by
  intro items
  induction items with
  | nil => intro path i h; cases h
  | cons x xs ih =>
      intro path i h
      rcases List.mem_cons.mp h with rfl | hx
      · obtain ⟨q, hq⟩ := hv (pathExt path (toString i))
        exact ⟨q, by simp only [validateFilterItems, List.mem_append]; exact Or.inl hq⟩
      · obtain ⟨q, hq⟩ := ih path (i + 1) hx
        exact ⟨q, by simp only [validateFilterItems, List.mem_append]; exact Or.inr hq⟩

theorem mem_filter_entry_of_closed {ef : List (String × Json)} {path : String}
    {v : Violation} (h : v ∈ checkClosed path filterProps ef) :
    v ∈ validateObservationsFilter path (.obj ef) := by
  simp only [validateObservationsFilter, List.mem_append]
  exact Or.inl (Or.inl (Or.inl (Or.inl (Or.inl (Or.inl (Or.inl (Or.inl (Or.inl
    (Or.inl (Or.inl h))))))))))

theorem mem_filter_entry_of_value_range {ef : List (String × Json)} {path : String}
    {r : Json} {v : Violation} (hr : jget ef "value_range" = some r)
    (hv : v ∈ validateValueRange (pathExt path "value_range") r) :
    v ∈ validateObservationsFilter path (.obj ef) := by
  simp only [validateObservationsFilter, List.mem_append]
  refine Or.inl (Or.inr ?_)
  rw [checkProp_some hr]
  exact hv

theorem mem_filter_entry_of_exclude {ef : List (String × Json)} {path : String}
    {b : Json} {v : Violation} (hb : jget ef "exclude" = some b)
    (hv : v ∈ checkBoolean (pathExt path "exclude") b) :
    v ∈ validateObservationsFilter path (.obj ef) := by
  simp only [validateObservationsFilter, List.mem_append]
  refine Or.inl (Or.inl (Or.inl (Or.inl (Or.inl (Or.inl (Or.inl (Or.inl (Or.inl
    (Or.inl (Or.inr ?_))))))))))
  rw [checkProp_some hb]
  exact hv

theorem mem_filter_entry_of_inverted {ef : List (String × Json)} {path : String}
    {b : Json} {v : Violation} (hb : jget ef "inverted" = some b)
    (hv : v ∈ checkBoolean (pathExt path "inverted") b) :
    v ∈ validateObservationsFilter path (.obj ef) := by
  simp only [validateObservationsFilter, List.mem_append]
  refine Or.inl (Or.inl (Or.inl (Or.inl (Or.inl (Or.inl (Or.inl (Or.inl (Or.inl
    (Or.inr ?_)))))))))
  rw [checkProp_some hb]
  exact hv

/-! ### Lemmas about lookup, default insertion and field mapping -/

theorem jget_append_of_none {a : List (String × Json)} {k : String}
    (b : List (String × Json)) (h : jget a k = none) : jget (a ++ b) k = jget b k := by
  induction a with
  | nil => rfl
  | cons hd t ih =>
      obtain ⟨k2, v2⟩ := hd
      by_cases hk : k2 = k
      · simp [jget, hk] at h
      · simp only [List.cons_append, jget, hk, if_false] at h ⊢
        exact ih h

theorem jget_append_of_some {a : List (String × Json)} {k : String} {v : Json}
    (b : List (String × Json)) (h : jget a k = some v) : jget (a ++ b) k = some v := by
  induction a with
  | nil => simp [jget] at h
  | cons hd t ih =>
      obtain ⟨k2, v2⟩ := hd
      by_cases hk : k2 = k
      · simp only [jget, hk, if_true] at h ⊢
        simpa using h
      · simp only [List.cons_append, jget, hk, if_false] at h ⊢
        exact ih h

theorem jget_setDefault_self (fields : List (String × Json)) (k : String) (d : Json) :
    jget (setDefault fields k d) k = some ((jget fields k).getD d) := by
  unfold setDefault
  cases h : jget fields k with
  | some v => simp [jhas, h]
  | none => simp [jhas, h, jget_append_of_none _ h, jget]

theorem jget_setDefault_other {k k2 : String} (fields : List (String × Json)) (d : Json)
    (hne : k ≠ k2) : jget (setDefault fields k d) k2 = jget fields k2 := by
  unfold setDefault
  cases hh : jhas fields k
  · simp only [Bool.false_eq_true, if_false]
    cases h2 : jget fields k2 with
    | some v => exact jget_append_of_some _ h2
    | none => rw [jget_append_of_none _ h2]; simp [jget, hne]
  · simp

theorem jget_mapField_self (fields : List (String × Json)) (k : String) (f : Json → Json) :
    jget (mapField fields k f) k = (jget fields k).map f := by
  induction fields with
  | nil => rfl
  | cons hd t ih =>
      obtain ⟨k2, v2⟩ := hd
      by_cases hk : k2 = k
      · subst hk
        show jget ((if k2 = k2 then (k2, f v2) else (k2, v2)) :: mapField t k2 f) k2 = _
        rw [if_pos rfl]
        simp [jget]
      · show jget ((if k2 = k then (k2, f v2) else (k2, v2)) :: mapField t k f) k = _
        rw [if_neg hk]
        simp only [jget, hk, if_false]
        exact ih

theorem checkNumberItems_eq_nil_iff (path : String) :
    ∀ (xs : List Json) (i : Nat),
      checkNumberItems path i xs = [] ↔ ∀ x ∈ xs, isNum x = true := by
  intro xs
  induction xs with
  | nil => intro i; simp [checkNumberItems]
  | cons x t ih =>
      intro i
      simp only [checkNumberItems, List.append_eq_nil, checkNumber, List.mem_cons]
      constructor
      · rintro ⟨h1, h2⟩ y hy
        rcases hy with rfl | hy
        · by_contra hn
          simp [hn] at h1
        · exact (ih (i + 1)).mp h2 y hy
      · intro h
        refine ⟨by simp [h x (Or.inl rfl)], (ih (i + 1)).mpr fun y hy => h y (Or.inr hy)⟩

/-! ### Claim theorems -/

theorem pathExt_general (key : String) : pathExt "general" key = "general." ++ key := rfl

/-- C6: the minimal document `{general: {logging: {level: "INFO"}}}` validates
successfully: the validator returns a valid result with an empty (zero-length)
sequence of violations. -/
theorem c6_minimal_document_valid :
    validateConfig (.obj [("general", .obj [("logging", .obj [("level", .str "INFO")])])]) = []
      ∧ isValidConfig (.obj [("general", .obj [("logging", .obj [("level", .str "INFO")])])])
          = true := by
  constructor <;> decide

/-- C2: the top level must be an object whose keys are drawn only from
{general, observations, grid, model, analysis}: a non-object document yields
the top-level type violation, a key outside the set yields an
additional-property violation at that key, and a document missing `general`
fails with a missing-required-property violation naming `general`. -/
theorem c2_top_level_closed_and_general_required :
    (∀ j : Json, isObj j = false → validateConfig j = [("", "is not of type: object")]) ∧
    (∀ (fields : List (String × Json)) (k : String) (v : Json),
      (k, v) ∈ fields → topProps.contains k = false →
      (k, "additional property not allowed: " ++ k) ∈ validateConfig (.obj fields)) ∧
    (∀ fields : List (String × Json), jget fields "general" = none →
      ("", "missing required property: general") ∈ validateConfig (.obj fields)) := by
  refine ⟨?_, ?_, ?_⟩
  · intro j hj
    cases j <;> simp_all [validateConfig, isObj]
  · intro fields k v hin hk
    have := @mem_checkClosed "" _ _ _ _ hin hk
    rw [pathExt_empty] at this
    exact mem_config_of_top_closed this
  · intro fields h
    exact mem_config_of_required_general h

/-- C2 witness: the concrete documents `3` (not an object),
`{foo: null}` (unknown key, also missing `general`) and `{}` (missing
`general`) exhibit the three violations. -/
theorem c2_witness :
    validateConfig (.num 3) = [("", "is not of type: object")] ∧
    ("foo", "additional property not allowed: " ++ "foo") ∈
      validateConfig (.obj [("foo", .null)]) ∧
    ("", "missing required property: general") ∈ validateConfig (.obj []) :=
  ⟨c2_top_level_closed_and_general_required.1 (.num 3) (by decide),
   c2_top_level_closed_and_general_required.2.1 _ "foo" .null (List.Mem.head _) (by decide),
   c2_top_level_closed_and_general_required.2.2 [] rfl⟩

/-- C9: within `general` only `out_folder` and `logging` are permitted and
`logging` is required: a document whose `general` object lacks `logging` fails
with a missing-required-property violation for `logging` (validation reports
the violation rather than filling in the schema's declared defaults), and an
undeclared key inside `general` yields an additional-property violation. -/
theorem c9_general_closed_and_logging_required :
    (∀ (fields gf : List (String × Json)),
      jget fields "general" = some (.obj gf) → jget gf "logging" = none →
      ("general", "missing required property: logging") ∈ validateConfig (.obj fields)) ∧
    (∀ (fields gf : List (String × Json)) (k : String) (v : Json),
      jget fields "general" = some (.obj gf) → (k, v) ∈ gf →
      generalProps.contains k = false →
      ("general." ++ k, "additional property not allowed: " ++ k) ∈
        validateConfig (.obj fields)) := by
  refine ⟨?_, ?_⟩
  · intro fields gf hg hl
    exact mem_config_of_general hg (mem_general_of_required_logging hl)
  · intro fields gf k v hg hin hk
    have := @mem_checkClosed "general" _ _ _ _ hin hk
    rw [pathExt_general] at this
    exact mem_config_of_general hg (mem_general_of_closed this)

/-- C9 witness: `{general: {}}` and `{general: {out_folder: "."}}` fail with
the missing `logging` violation; `{general: {bad: null}}` also reports the
unknown key `bad`. -/
theorem c9_witness :
    ("general", "missing required property: logging") ∈
      validateConfig (.obj [("general", .obj [])]) ∧
    ("general", "missing required property: logging") ∈
      validateConfig (.obj [("general", .obj [("out_folder", .str ".")])]) ∧
    ("general." ++ "bad", "additional property not allowed: " ++ "bad") ∈
      validateConfig (.obj [("general", .obj [("bad", .null)])]) :=
  ⟨c9_general_closed_and_logging_required.1 _ [] rfl rfl,
   c9_general_closed_and_logging_required.1 _ _ rfl rfl,
   c9_general_closed_and_logging_required.2 _ _ "bad" .null rfl (List.Mem.head _) (by decide)⟩

/-- C3: a document whose `general.logging` has `filemode` but no `filename`
fails with a cross-field dependency violation at `general.logging`; when
`filename` is also present, or `filemode` is absent, the dependency check
produces no violation. -/
theorem c3_filemode_requires_filename :
    (∀ (fields gf lf : List (String × Json)),
      jget fields "general" = some (.obj gf) →
      jget gf "logging" = some (.obj lf) →
      jhas lf "filemode" = true → jhas lf "filename" = false →
      ("general.logging", "dependency: filemode requires filename") ∈
        validateConfig (.obj fields)) ∧
    (∀ (path : String) (lf : List (String × Json)),
      jhas lf "filename" = true ∨ jhas lf "filemode" = false →
      checkLoggingDeps path lf = []) := by
  refine ⟨?_, ?_⟩
  · intro fields gf lf hg hl h1 h2
    refine mem_config_of_general hg (mem_general_of_logging hl ?_)
    rw [pathExt_general]
    exact mem_logging_of_deps (by simp [checkLoggingDeps, h1, h2])
  · intro path lf h
    rcases h with h | h <;> simp [checkLoggingDeps, h]

/-- C3 witness: `{general: {logging: {level: "INFO", filemode: "w"}}}` fails
with the dependency violation; adding `filename` (or dropping `filemode`)
satisfies the dependency check. -/
theorem c3_witness :
    ("general.logging", "dependency: filemode requires filename") ∈
      validateConfig (.obj [("general", .obj [("logging",
        .obj [("level", .str "INFO"), ("filemode", .str "w")])])]) ∧
    checkLoggingDeps "general.logging"
      [("level", .str "INFO"), ("filemode", .str "w"), ("filename", .str "a.log")] = [] ∧
    checkLoggingDeps "general.logging" [("level", .str "INFO")] = [] :=
  ⟨c3_filemode_requires_filename.1 _ _ _ rfl rfl (by decide) (by decide),
   c3_filemode_requires_filename.2 _ _ (Or.inl (by decide)),
   c3_filemode_requires_filename.2 _ _ (Or.inr (by decide))⟩

theorem jsonBeq_str_str (a b : String) : jsonBeq (.str a) (.str b) = (a == b) := rfl

theorem jsonBeq_num_str (q : Rat) (s : String) : jsonBeq (.num q) (.str s) = false := rfl

theorem jsonMem_str_levelEnum_iff (s : String) :
    jsonMem (.str s) levelEnum = true ↔
      (s = "CRITICAL" ∨ s = "ERROR" ∨ s = "WARNING" ∨ s = "INFO" ∨
       s = "DEBUG" ∨ s = "NOTSET") := by
  simp only [jsonMem, levelEnum, List.any_cons, List.any_nil,
    jsonBeq_str_str, jsonBeq_num_str, Bool.false_or, Bool.or_false,
    Bool.or_eq_true, beq_iff_eq]
  tauto

theorem validateLevel_eq_nil_iff (path : String) (j : Json) :
    validateLevel path j = [] ↔ (isStr j = true ∧ jsonMem j levelEnum = true) := by
  rcases h1 : isStr j <;> rcases h2 : jsonMem j levelEnum <;>
    simp [validateLevel, h1, h2]

/-- C1 counterexample: the integer literal `50` is one of the 11 `enum`
members of `general.logging.level`, yet the document
`{general: {logging: {level: 50}}}` fails validation, because the `level`
subschema also declares `type: string` and a conformant validator applies
both keywords.  This refutes the claimed equivalence between satisfying the
schema and membership in the 11-literal set. -/
theorem c1_counterexample :
    jsonMem (.num 50) levelEnum = true ∧
    validateConfig (.obj [("general", .obj [("logging", .obj [("level", .num 50)])])]) =
      [("general.logging.level", "is not of type: string")] := by
  constructor <;> decide

/-- C1 amended: `general.logging.level` satisfies its subschema iff its value
is one of the six string literals CRITICAL, ERROR, WARNING, INFO, DEBUG,
NOTSET — the numeric enum members 50, 40, 30, 20, 10 are excluded by the
`type: string` keyword; and any document whose `general.logging.level` lies
outside the 11-literal enum fails validation with a violation citing that
field. -/
theorem c1_amended_level_schema :
    (∀ (path : String) (j : Json), validateLevel path j = [] ↔
      (j = .str "CRITICAL" ∨ j = .str "ERROR" ∨ j = .str "WARNING" ∨
       j = .str "INFO" ∨ j = .str "DEBUG" ∨ j = .str "NOTSET")) ∧
    (∀ (fields gf lf : List (String × Json)) (j : Json),
      jget fields "general" = some (.obj gf) →
      jget gf "logging" = some (.obj lf) →
      jget lf "level" = some j →
      jsonMem j levelEnum = false →
      ("general.logging.level", "is not one of the enum values") ∈
        validateConfig (.obj fields)) := by
  refine ⟨?_, ?_⟩
  · intro path j
    rw [validateLevel_eq_nil_iff]
    cases j with
    | str s =>
        rw [show isStr (Json.str s) = true from rfl]
        simp only [true_and]
        rw [jsonMem_str_levelEnum_iff]
        simp
    | null => simp [isStr]
    | bool b => simp [isStr]
    | num q => simp [isStr]
    | arr items => simp [isStr]
    | obj fields => simp [isStr]
  · intro fields gf lf j hg hl hj henum
    refine mem_config_of_general hg (mem_general_of_logging hl ?_)
    rw [pathExt_general]
    refine mem_logging_of_level hj ?_
    simp [pathExt, validateLevel, henum]

/-- C1 amended witness: `"INFO"` satisfies the `level` subschema, `"VERBOSE"`
does not, and `{general: {logging: {level: "VERBOSE"}}}` fails validation
with the enum violation at `general.logging.level`. -/
theorem c1_amended_witness :
    validateLevel "general.logging.level" (.str "INFO") = [] ∧
    ("general.logging.level", "is not one of the enum values") ∈
      validateConfig (.obj [("general", .obj [("logging",
        .obj [("level", .str "VERBOSE")])])]) :=
  ⟨(c1_amended_level_schema.1 _ _).mpr (Or.inr (Or.inr (Or.inr (Or.inl rfl)))),
   c1_amended_level_schema.2 _ _ _ _ rfl rfl rfl (by decide)⟩

/-- C5: `value_range`, when present on a filter entry, must be an array of
exactly 2 numeric items; an array of fewer than 2 elements (e.g. 1) yields
the minItems violation and one of more than 2 elements (e.g. 3) the maxItems
violation, both citing the `value_range` field of the entry. -/
theorem c5_value_range_two_numbers :
    (∀ (path : String) (j : Json), validateValueRange path j = [] ↔
      ∃ xs : List Json, j = .arr xs ∧ xs.length = 2 ∧ ∀ x ∈ xs, isNum x = true) ∧
    (∀ (path : String) (ef : List (String × Json)) (xs : List Json),
      jget ef "value_range" = some (.arr xs) → xs.length < 2 →
      (pathExt path "value_range", "array is too short (minItems: 2)") ∈
        validateObservationsFilter path (.obj ef)) ∧
    (∀ (path : String) (ef : List (String × Json)) (xs : List Json),
      jget ef "value_range" = some (.arr xs) → 2 < xs.length →
      (pathExt path "value_range", "array is too long (maxItems: 2)") ∈
        validateObservationsFilter path (.obj ef)) := by
  refine ⟨?_, ?_, ?_⟩
  · intro path j
    cases j with
    | arr xs =>
        simp only [validateValueRange, List.append_eq_nil, checkNumberItems_eq_nil_iff]
        constructor
        · rintro ⟨⟨hnum, hshort⟩, hlong⟩
          refine ⟨xs, rfl, ?_, hnum⟩
          by_cases h2 : xs.length < 2
          · simp [h2] at hshort
          · by_cases h3 : 2 < xs.length
            · simp [h3] at hlong
            · omega
        · rintro ⟨ys, hy, hlen, hnum⟩
          injection hy with h
          subst h
          refine ⟨⟨hnum, ?_⟩, ?_⟩ <;> simp [hlen]
    | null => simp [validateValueRange]
    | bool b => simp [validateValueRange]
    | num q => simp [validateValueRange]
    | str s => simp [validateValueRange]
    | obj fields => simp [validateValueRange]
  · intro path ef xs hr hlen
    refine mem_filter_entry_of_value_range hr ?_
    simp only [validateValueRange, List.mem_append]
    refine Or.inl (Or.inr ?_)
    rw [if_pos hlen]
    exact List.mem_singleton.mpr rfl
  · intro path ef xs hr hlen
    refine mem_filter_entry_of_value_range hr ?_
    simp only [validateValueRange, List.mem_append]
    refine Or.inr ?_
    rw [if_pos hlen]
    exact List.mem_singleton.mpr rfl

/-- C5 witness: a 1-element `value_range` yields the minItems violation, a
3-element one the maxItems violation, and a 2-element numeric pair satisfies
the `value_range` subschema. -/
theorem c5_witness :
    (pathExt "f" "value_range", "array is too short (minItems: 2)") ∈
      validateObservationsFilter "f" (.obj [("value_range", .arr [.num 1])]) ∧
    (pathExt "f" "value_range", "array is too long (maxItems: 2)") ∈
      validateObservationsFilter "f"
        (.obj [("value_range", .arr [.num 1, .num 2, .num 3])]) ∧
    validateValueRange "f.value_range" (.arr [.num 1, .num 2]) = [] :=
  ⟨c5_value_range_two_numbers.2.1 "f" _ _ rfl (by decide),
   c5_value_range_two_numbers.2.2 "f" _ _ rfl (by decide),
   (c5_value_range_two_numbers.1 "f.value_range" _).mpr
     ⟨[.num 1, .num 2], rfl, rfl, by decide⟩⟩

/-- C4: a filter entry is a closed schema: any undeclared property in an
entry of `observations.filter` yields an additional-property violation at
that property, and a document containing such an entry fails validation with
that violation. -/
theorem c4_filter_entry_closed :
    (∀ (path : String) (ef : List (String × Json)) (k : String) (v : Json),
      (k, v) ∈ ef → filterProps.contains k = false →
      (pathExt path k, "additional property not allowed: " ++ k) ∈
        validateObservationsFilter path (.obj ef)) ∧
    (∀ (fields obsf ef : List (String × Json)) (items : List Json)
        (k : String) (v : Json),
      jget fields "observations" = some (.obj obsf) →
      jget obsf "filter" = some (.arr items) →
      (Json.obj ef) ∈ items → (k, v) ∈ ef → filterProps.contains k = false →
      ∃ q, (q, "additional property not allowed: " ++ k) ∈
        validateConfig (.obj fields)) := by
  have part1 : ∀ (path : String) (ef : List (String × Json)) (k : String) (v : Json),
      (k, v) ∈ ef → filterProps.contains k = false →
      (pathExt path k, "additional property not allowed: " ++ k) ∈
        validateObservationsFilter path (.obj ef) := by
    intro path ef k v hin hk
    exact mem_filter_entry_of_closed (mem_checkClosed hin hk)
  refine ⟨part1, ?_⟩
  intro fields obsf ef items k v ho hf he hin hk
  obtain ⟨q, hq⟩ := mem_filterItems_of_entry
    (fun p => ⟨pathExt p k, part1 p ef k v hin hk⟩) items
    (pathExt "observations" "filter") 0 he
  refine ⟨q, mem_config_of_observations ho (mem_observations_of_filter hf ?_)⟩
  simpa [validateFilterArray] using hq

/-- C4 witness: the document whose single filter entry is
`{filter_type: "sky_circle", foo: 1}` fails validation with an
additional-property violation for `foo`. -/
theorem c4_witness :
    ∃ q, (q, "additional property not allowed: " ++ "foo") ∈
      validateConfig (.obj
        [("general", .obj [("logging", .obj [("level", .str "INFO")])]),
         ("observations", .obj [("filter", .arr
           [.obj [("filter_type", .str "sky_circle"), ("foo", .num 1)]])])]) :=
  c4_filter_entry_closed.2 _ _ _ _ "foo" (.num 1) rfl rfl (List.Mem.head _)
    (List.Mem.tail _ (List.Mem.head _)) (by decide)

/-- C10: a filter entry may carry the boolean properties `exclude` and
`inverted`: the document whose filter entry is
`{filter_type: "ids", obs_ids: [1], exclude: true, inverted: false}`
validates with zero violations, while a non-boolean value for either
property yields a boolean type violation at that property. -/
theorem c10_exclude_inverted_boolean :
    validateConfig (.obj
      [("general", .obj [("logging", .obj [("level", .str "INFO")])]),
       ("observations", .obj [("filter", .arr
         [.obj [("filter_type", .str "ids"), ("obs_ids", .arr [.num 1]),
                ("exclude", .bool true), ("inverted", .bool false)]])])]) = [] ∧
    (∀ (path : String) (ef : List (String × Json)) (b : Json),
      jget ef "exclude" = some b → isBool b = false →
      (pathExt path "exclude", "is not of type: boolean") ∈
        validateObservationsFilter path (.obj ef)) ∧
    (∀ (path : String) (ef : List (String × Json)) (b : Json),
      jget ef "inverted" = some b → isBool b = false →
      (pathExt path "inverted", "is not of type: boolean") ∈
        validateObservationsFilter path (.obj ef)) := by
  refine ⟨by decide, ?_, ?_⟩
  · intro path ef b hb hnb
    exact mem_filter_entry_of_exclude hb (by simp [checkBoolean, hnb])
  · intro path ef b hb hnb
    exact mem_filter_entry_of_inverted hb (by simp [checkBoolean, hnb])

/-- C10 witness: a numeric `exclude` and a string `inverted` each yield the
boolean type violation at the corresponding field. -/
theorem c10_witness :
    (pathExt "f" "exclude", "is not of type: boolean") ∈
      validateObservationsFilter "f" (.obj [("exclude", .num 1)]) ∧
    (pathExt "f" "inverted", "is not of type: boolean") ∈
      validateObservationsFilter "f" (.obj [("inverted", .str "no")]) :=
  ⟨c10_exclude_inverted_boolean.2.1 "f" _ _ rfl (by decide),
   c10_exclude_inverted_boolean.2.2 "f" _ _ rfl (by decide)⟩

/-- C8: the validator reports every violation in one invocation: the validity
flag is exactly emptiness of the returned violation sequence, and a document
that simultaneously breaks an unknown-top-level-key constraint, the `level`
enum and the filemode/filename dependency has all three violations present in
the single returned sequence. -/
theorem c8_all_violations_one_pass :
    (∀ j : Json, isValidConfig j = true ↔ validateConfig j = []) ∧
    (∀ (fields gf lf : List (String × Json)) (k : String) (v j : Json),
      (k, v) ∈ fields → topProps.contains k = false →
      jget fields "general" = some (.obj gf) →
      jget gf "logging" = some (.obj lf) →
      jget lf "level" = some j →
      jsonMem j levelEnum = false →
      jhas lf "filemode" = true → jhas lf "filename" = false →
      (k, "additional property not allowed: " ++ k) ∈ validateConfig (.obj fields) ∧
      ("general.logging.level", "is not one of the enum values") ∈
        validateConfig (.obj fields) ∧
      ("general.logging", "dependency: filemode requires filename") ∈
        validateConfig (.obj fields)) := by
  refine ⟨?_, ?_⟩
  · intro j
    simp [isValidConfig, List.isEmpty_iff]
  · intro fields gf lf k v j hin hk hg hl hj he h1 h2
    refine ⟨?_, ?_, ?_⟩
    · have := @mem_checkClosed "" _ _ _ _ hin hk
      rw [pathExt_empty] at this
      exact mem_config_of_top_closed this
    · refine mem_config_of_general hg (mem_general_of_logging hl ?_)
      rw [pathExt_general]
      refine mem_logging_of_level hj ?_
      simp [pathExt, validateLevel, he]
    · refine mem_config_of_general hg (mem_general_of_logging hl ?_)
      rw [pathExt_general]
      exact mem_logging_of_deps (by simp [checkLoggingDeps, h1, h2])

/-- C8 witness: the document
`{general: {logging: {level: "BAD", filemode: "w"}}, foo: null}` breaks three
constraints at once and all three violations appear in the one returned
sequence. -/
theorem c8_witness :
    ("foo", "additional property not allowed: " ++ "foo") ∈
      validateConfig (.obj [("general", .obj [("logging",
        .obj [("level", .str "BAD"), ("filemode", .str "w")])]), ("foo", .null)]) ∧
    ("general.logging.level", "is not one of the enum values") ∈
      validateConfig (.obj [("general", .obj [("logging",
        .obj [("level", .str "BAD"), ("filemode", .str "w")])]), ("foo", .null)]) ∧
    ("general.logging", "dependency: filemode requires filename") ∈
      validateConfig (.obj [("general", .obj [("logging",
        .obj [("level", .str "BAD"), ("filemode", .str "w")])]), ("foo", .null)]) :=
  c8_all_violations_one_pass.2 _ _ _ "foo" .null (.str "BAD")
    (List.Mem.tail _ (List.Mem.head _)) (by decide) rfl rfl rfl
    (by decide) (by decide) (by decide)

theorem jgetPath_cons_obj {fields : List (String × Json)} {k : String}
    {rest : List String} {v : Json} (h : jget fields k = some v) :
    jgetPath (.obj fields) (k :: rest) = jgetPath v rest := by
  simp [jgetPath, h]

/-- C7 counterexample: in the document `{general: {}}`, `general.logging` is
not supplied, yet after the default-filling pass the resulting configuration
has `general.logging.level` equal to `""` (logging's declared default
`{level: ""}` is inserted whole, and the present empty-string `level` is not
replaced), not `"INFO"` as claimed. -/
theorem c7_counterexample :
    jgetPath (fillConfigDefaults (.obj [("general", .obj [])]))
      ["general", "logging", "level"] = some (.str "") ∧
    jgetPath (fillConfigDefaults (.obj [("general", .obj [])]))
      ["general", "logging", "level"] ≠ some (.str "INFO") := by
  refine ⟨rfl, fun h => ?_⟩
  have h2 : Json.str "" = Json.str "INFO" := Option.some.inj h
  injection h2 with h3
  exact absurd h3 (by decide)

/-- C7 amended: after the default-filling pass, `general.logging` is present
in the resulting configuration whenever `general` was absent or an object.
When `general` itself is absent, it is inserted from its declared default
`{logging: {}}` and the empty logging object is coerced to `{level: "INFO"}`;
but when `general` is present without `logging`, `logging` is inserted with
its own declared default `{level: ""}` — whose level is NOT coerced to
`"INFO"` (and then fails the level enum). -/
theorem c7_amended_default_filling :
    (∀ fields : List (String × Json), jget fields "general" = none →
      jgetPath (fillConfigDefaults (.obj fields)) ["general", "logging"] =
        some (.obj [("level", .str "INFO")])) ∧
    (∀ (fields gf : List (String × Json)),
      jget fields "general" = some (.obj gf) → jget gf "logging" = none →
      jgetPath (fillConfigDefaults (.obj fields)) ["general", "logging"] =
        some (.obj [("level", .str "")])) := by
  refine ⟨?_, ?_⟩
  · intro fields h
    have hF : jget (mapField (setDefault fields "general" (.obj [("logging", .obj [])]))
        "general" fillGeneralDefaults) "general"
        = some (fillGeneralDefaults (.obj [("logging", .obj [])])) := by
      rw [jget_mapField_self, jget_setDefault_self, h]
      rfl
    simp only [fillConfigDefaults]
    rw [jgetPath_cons_obj hF]
    rfl
  · intro fields gf hg hlog
    have hF : jget (mapField (setDefault fields "general" (.obj [("logging", .obj [])]))
        "general" fillGeneralDefaults) "general"
        = some (fillGeneralDefaults (.obj gf)) := by
      rw [jget_mapField_self, jget_setDefault_self, hg]
      rfl
    simp only [fillConfigDefaults]
    rw [jgetPath_cons_obj hF]
    simp only [fillGeneralDefaults]
    have hG : jget (mapField (setDefault (setDefault gf "out_folder" (.str "."))
        "logging" (.obj [("level", .str "")])) "logging" fillLoggingDefaults) "logging"
        = some (fillLoggingDefaults (.obj [("level", .str "")])) := by
      rw [jget_mapField_self, jget_setDefault_self,
        jget_setDefault_other gf _ (by decide), hlog]
      rfl
    rw [jgetPath_cons_obj hG]
    rfl

/-- C7 amended witness: filling `{}` yields `general.logging = {level: "INFO"}`,
while filling `{general: {}}` yields `general.logging = {level: ""}`. -/
theorem c7_amended_witness :
    jgetPath (fillConfigDefaults (.obj [])) ["general", "logging"] =
      some (.obj [("level", .str "INFO")]) ∧
    jgetPath (fillConfigDefaults (.obj [("general", .obj [])])) ["general", "logging"] =
      some (.obj [("level", .str "")]) :=
  ⟨c7_amended_default_filling.1 [] rfl,
   c7_amended_default_filling.2 _ [] rfl rfl⟩
